import Mathlib

/-!
Verification of the short-code allocation and lookup engine of the
URL-shortener service.  The Rust sources under `src/` are shallowly
embedded: strings are Lean `String`s (sequences of unicode scalar
characters, with UTF-8 byte length made explicit where the source uses
`String::len`), timestamps are integers (seconds), machine integers are
`Nat`/`Int`, random draws are explicit input streams, and every store
interaction is explicit state passing over a list of records.
-/

namespace UrlShortener

/-- The 62-character alphabet `0-9`, `A-Z`, `a-z` used by the base62 codec
(`CHARSET` in `src/utils/hash.rs`). -/
def CHARSET : List Char :=
  "0123456789ABCDEFGHIJKLMNOPQRSTUVWXYZabcdefghijklmnopqrstuvwxyz".data

/-- Indexing `CHARSET[i]`, as done by `encode_base62` and
`random_base62_char`; the source only ever indexes with `i < 62`, so the
default is unreachable. -/
def base62_digit (i : Nat) : Char := CHARSET.getD i '0'

/-- The push loop of `encode_base62` in `src/utils/hash.rs`: while
`num > 0`, push `CHARSET[num % 62]` onto `result` and divide `num` by `62`. -/
def encode_go (num : Nat) (result : List Char) : List Char :=
  if h : num = 0 then result
  else encode_go (num / 62) (result ++ [base62_digit (num % 62)])
termination_by num
decreasing_by exact Nat.div_lt_self (Nat.pos_of_ne_zero h) (by omega)

/-- Converts a number to base62 representation (`encode_base62` in
`src/utils/hash.rs`): `0` maps to `"0"`, otherwise the digits pushed
least-significant first are reversed into a string. -/
def encode_base62 (num : Nat) : String :=
  if num = 0 then "0" else String.mk (encode_go num []).reverse

/-- Value of a base62 digit character: its index in `CHARSET` (62 if absent). -/
def digit_val (c : Char) : Nat := CHARSET.indexOf c

/-- Numeric value of a base62 digit string, most significant digit first
(specification-side definition used to state what `encode_base62` computes). -/
def base62_value (ds : List Char) : Nat :=
  ds.foldl (fun acc c => acc * 62 + digit_val c) 0

/-- Random choice of one alphabet character (`random_base62_char` in
`src/utils/hash.rs`); the index drawn uniformly from `0..CHARSET.len()` is an
explicit input. -/
def random_base62_char (idx : Fin 62) : Char := base62_digit idx.val

/-- Generates a short id (`generate_short_id` in `src/utils/id_generator.rs`):
base62-encode the drawn 64-bit number, append successively drawn random
alphabet characters while the string is shorter than `length` (that while
loop appends exactly `length - encoded.len()` draws), then truncate to
`length` if too long.  The random 64-bit number and the stream of random
character draws are explicit inputs. -/
def generate_short_id (random_id : Nat) (draws : Nat → Fin 62) (length : Nat) : String :=
  let encoded := (encode_base62 random_id).data
  let padded :=
    encoded ++ (List.range (length - encoded.length)).map (fun k => random_base62_char (draws k))
  String.mk (if padded.length > length then padded.take length else padded)

theorem encode_go_zero (res : List Char) : encode_go 0 res = res := by
  rw [encode_go]
  simp

theorem encode_go_pos (num : Nat) (res : List Char) (h : num ≠ 0) :
    encode_go num res = encode_go (num / 62) (res ++ [base62_digit (num % 62)]) := by
  rw [encode_go]
  simp [h]

theorem encode_go_append (num : Nat) :
    ∀ res : List Char, encode_go num res = res ++ encode_go num [] := by
  induction num using Nat.strong_induction_on with
  | _ num ih =>
    intro res
    by_cases h : num = 0
    · subst h
      simp [encode_go_zero]
    · have hlt : num / 62 < num := Nat.div_lt_self (Nat.pos_of_ne_zero h) (by omega)
      rw [encode_go_pos num res h, encode_go_pos num [] h,
        ih (num / 62) hlt (res ++ [base62_digit (num % 62)]),
        ih (num / 62) hlt ([] ++ [base62_digit (num % 62)])]
      simp

theorem encode_go_cons (num : Nat) (h : num ≠ 0) :
    encode_go num [] = base62_digit (num % 62) :: encode_go (num / 62) [] := by
  rw [encode_go_pos num [] h, encode_go_append (num / 62)]
  simp

theorem digit_val_base62_digit : ∀ i, i < 62 → digit_val (base62_digit i) = i := by decide

theorem base62_digit_mem : ∀ i, i < 62 → base62_digit i ∈ CHARSET := by decide

theorem base62_value_append (xs : List Char) (c : Char) :
    base62_value (xs ++ [c]) = 62 * base62_value xs + digit_val c := by
  simp [base62_value, List.foldl_append]
  ring

theorem encode_go_value (num : Nat) : base62_value (encode_go num []).reverse = num := by
  induction num using Nat.strong_induction_on with
  | _ num ih =>
    by_cases h : num = 0
    · subst h
      simp [encode_go_zero, base62_value]
    · have hlt : num / 62 < num := Nat.div_lt_self (Nat.pos_of_ne_zero h) (by omega)
      rw [encode_go_cons num h]
      simp only [List.reverse_cons]
      rw [base62_value_append, ih (num / 62) hlt,
        digit_val_base62_digit (num % 62) (Nat.mod_lt num (by omega))]
      omega

theorem encode_go_chars (num : Nat) : ∀ c ∈ encode_go num [], c ∈ CHARSET := by
  induction num using Nat.strong_induction_on with
  | _ num ih =>
    by_cases h : num = 0
    · subst h
      simp [encode_go_zero]
    · have hlt : num / 62 < num := Nat.div_lt_self (Nat.pos_of_ne_zero h) (by omega)
      rw [encode_go_cons num h]
      intro c hc
      rcases List.mem_cons.mp hc with hc | hc
      · subst hc
        exact base62_digit_mem (num % 62) (Nat.mod_lt num (by omega))
      · exact ih (num / 62) hlt c hc

theorem encode_go_lt (num : Nat) : num < 62 ^ (encode_go num []).length := by
  induction num using Nat.strong_induction_on with
  | _ num ih =>
    by_cases h : num = 0
    · subst h
      simp [encode_go_zero]
    · have hlt : num / 62 < num := Nat.div_lt_self (Nat.pos_of_ne_zero h) (by omega)
      rw [encode_go_cons num h]
      have hq := ih (num / 62) hlt
      simp only [List.length_cons, pow_succ]
      have hmod : num % 62 < 62 := Nat.mod_lt num (by omega)
      have hdm : num = 62 * (num / 62) + num % 62 := (Nat.div_add_mod num 62).symm
      nlinarith

theorem encode_go_ge (num : Nat) (h : num ≠ 0) :
    62 ^ ((encode_go num []).length - 1) ≤ num := by
  induction num using Nat.strong_induction_on with
  | _ num ih =>
    have hlt : num / 62 < num := Nat.div_lt_self (Nat.pos_of_ne_zero h) (by omega)
    rw [encode_go_cons num h]
    by_cases hq : num / 62 = 0
    · rw [hq, encode_go_zero]
      simp
      omega
    · have hge := ih (num / 62) hlt hq
      have hpos : 1 ≤ (encode_go (num / 62) []).length := by
        rw [encode_go_cons (num / 62) hq]
        simp
      simp only [List.length_cons, Nat.add_sub_cancel]
      have hstep : 62 ^ (encode_go (num / 62) []).length ≤ 62 * (num / 62) := by
        calc 62 ^ (encode_go (num / 62) []).length
            = 62 ^ ((encode_go (num / 62) []).length - 1 + 1) := by
              congr 1
              omega
          _ = 62 * 62 ^ ((encode_go (num / 62) []).length - 1) := by
              rw [pow_succ]
              ring
          _ ≤ 62 * (num / 62) := by
              exact Nat.mul_le_mul_left 62 hge
      have hdm : 62 * (num / 62) ≤ num := Nat.mul_div_le num 62
      omega

theorem digit_val_lt (c : Char) (h : c ∈ CHARSET) : digit_val c < 62 := by
  have := List.indexOf_lt_length.mpr h
  simpa [digit_val, CHARSET] using this

theorem base62_value_foldl_lt (ds : List Char) :
    ∀ acc : Nat, (∀ c ∈ ds, c ∈ CHARSET) →
      ds.foldl (fun acc c => acc * 62 + digit_val c) acc < (acc + 1) * 62 ^ ds.length := by
  induction ds with
  | nil =>
    intro acc _
    simp
  | cons c ds ih =>
    intro acc hmem
    have hc : c ∈ CHARSET := hmem c (List.mem_cons_self c ds)
    have hv : digit_val c < 62 := digit_val_lt c hc
    have htail := ih (acc * 62 + digit_val c) (fun d hd => hmem d (List.mem_cons_of_mem c hd))
    simp only [List.foldl_cons, List.length_cons, pow_succ]
    calc List.foldl (fun acc c => acc * 62 + digit_val c) (acc * 62 + digit_val c) ds
        < (acc * 62 + digit_val c + 1) * 62 ^ ds.length := htail
      _ ≤ ((acc + 1) * 62) * 62 ^ ds.length := by
          have : acc * 62 + digit_val c + 1 ≤ (acc + 1) * 62 := by nlinarith
          exact Nat.mul_le_mul_right _ this
      _ = (acc + 1) * (62 ^ ds.length * 62) := by ring

theorem base62_value_lt (ds : List Char) (h : ∀ c ∈ ds, c ∈ CHARSET) :
    base62_value ds < 62 ^ ds.length := by
  have := base62_value_foldl_lt ds 0 h
  simpa [base62_value] using this

/-- C8: `encode_base62` is deterministic (it is a pure function of its
argument); for every unsigned 64-bit integer `n` its output uses only the
62-character alphabet `0-9A-Za-z` in that digit order, its digit string has
value `n` and no nonempty base62 digit string of smaller length has value
`n` (it is the shortest base62 representation), and `encode_base62 0 = "0"`. -/
theorem encode_base62_shortest_base62 (n : Nat) (hn : n < 2 ^ 64) :
    (∀ c ∈ (encode_base62 n).data, c ∈ CHARSET) ∧
    base62_value (encode_base62 n).data = n ∧
    (∀ ds : List Char, ds ≠ [] → (∀ c ∈ ds, c ∈ CHARSET) → base62_value ds = n →
      (encode_base62 n).data.length ≤ ds.length) ∧
    encode_base62 0 = "0" := by
  by_cases h : n = 0
  · subst h
    refine ⟨by decide, by decide, ?_, rfl⟩
    intro ds hne _ _
    have : 1 ≤ ds.length := by
      cases ds with
      | nil => exact absurd rfl hne
      | cons c t => simp
    simpa [encode_base62] using this
  · have hdata : (encode_base62 n).data = (encode_go n []).reverse := by
      simp [encode_base62, h]
    refine ⟨?_, ?_, ?_, rfl⟩
    · intro c hc
      rw [hdata] at hc
      exact encode_go_chars n c (List.mem_reverse.mp hc)
    · rw [hdata]
      exact encode_go_value n
    · intro ds _ hds hval
      rw [hdata, List.length_reverse]
      by_contra hcon
      push_neg at hcon
      have h1 : 62 ^ ((encode_go n []).length - 1) ≤ n := encode_go_ge n h
      have h2 : base62_value ds < 62 ^ ds.length := base62_value_lt ds hds
      have h3 : 62 ^ ds.length ≤ 62 ^ ((encode_go n []).length - 1) :=
        Nat.pow_le_pow_right (by omega) (by omega)
      omega

/-- Witness for C8 at the concrete input `n = 3`. -/
theorem encode_base62_shortest_base62_witness :
    (3 : Nat) < 2 ^ 64 ∧ base62_value (encode_base62 3).data = 3 :=
  ⟨by norm_num, (encode_base62_shortest_base62 3 (by norm_num)).2.1⟩

theorem encode_base62_chars (n : Nat) : ∀ c ∈ (encode_base62 n).data, c ∈ CHARSET := by
  by_cases h : n = 0
  · subst h
    decide
  · have hdata : (encode_base62 n).data = (encode_go n []).reverse := by
      simp [encode_base62, h]
    rw [hdata]
    intro c hc
    exact encode_go_chars n c (List.mem_reverse.mp hc)

theorem encode_base62_ne_nil (n : Nat) : (encode_base62 n).data ≠ [] := by
  by_cases h : n = 0
  · subst h
    decide
  · have hdata : (encode_base62 n).data = (encode_go n []).reverse := by
      simp [encode_base62, h]
    rw [hdata, encode_go_cons n h]
    simp

/-- C9: for every requested length `L ≥ 1` and every outcome of the random
draws, `generate_short_id` returns a string of exactly `L` characters, each
from the base62 alphabet; when the encoded random number is already at least
`L` characters long the result is its leftmost `L` characters (the encoded
output is kept leftmost under truncation; otherwise the random draws are
appended on the right). -/
theorem generate_short_id_length_and_alphabet
    (random_id : Nat) (draws : Nat → Fin 62) (length : Nat) (hL : 1 ≤ length) :
    (generate_short_id random_id draws length).data.length = length ∧
    (∀ c ∈ (generate_short_id random_id draws length).data, c ∈ CHARSET) ∧
    (length ≤ (encode_base62 random_id).data.length →
      (generate_short_id random_id draws length).data =
        (encode_base62 random_id).data.take length) := by
  have hchars := encode_base62_chars random_id
  simp only [generate_short_id]
  set e := (encode_base62 random_id).data with he
  set pad := (List.range (length - e.length)).map (fun k => random_base62_char (draws k))
    with hpad
  have hpadlen : pad.length = length - e.length := by simp [hpad]
  have hplen : (e ++ pad).length = e.length + (length - e.length) := by
    simp [hpadlen]
  have hmem : ∀ c ∈ e ++ pad, c ∈ CHARSET := by
    intro c hc
    rcases List.mem_append.mp hc with hc | hc
    · exact hchars c hc
    · rcases List.mem_map.mp hc with ⟨k, _, hk⟩
      rw [← hk]
      exact base62_digit_mem (draws k).val (draws k).isLt
  by_cases hgt : (e ++ pad).length > length
  · simp only [hgt, if_pos]
    refine ⟨?_, ?_, ?_⟩
    · dsimp only
      rw [List.length_take]
      omega
    · intro c hc
      exact hmem c (List.mem_of_mem_take hc)
    · intro hle
      have hzero : length - e.length = 0 := by omega
      rw [hpad, hzero]
      simp
  · simp only [hgt, if_neg, not_false_iff]
    have hlen : e.length + (length - e.length) = length := by omega
    refine ⟨?_, ?_, ?_⟩
    · omega
    · intro c hc
      exact hmem c hc
    · intro hle
      have hzero : length - e.length = 0 := by omega
      have hepad : pad = [] := by
        rw [hpad, hzero]
        simp
      have hel : e.length = length := by omega
      rw [hepad, List.append_nil]
      rw [← hel, List.take_length]

/-- Witness for C9 at the concrete input `random_id = 0`, constant draws,
`L = 6`. -/
theorem generate_short_id_length_and_alphabet_witness :
    (1 : Nat) ≤ 6 ∧ (generate_short_id 0 (fun _ => (0 : Fin 62)) 6).data.length = 6 :=
  ⟨by norm_num,
    (generate_short_id_length_and_alphabet 0 (fun _ => (0 : Fin 62)) 6 (by norm_num)).1⟩

/-- Rust `char::is_alphanumeric` (Unicode general categories L, Nd, Nl, No),
embedded faithfully on the code points up to U+00FF (ASCII digits and
letters, and the Latin-1 letters and numeric signs); the development only
evaluates the alias validator on characters in this range. -/
def rust_is_alphanumeric (c : Char) : Bool :=
  let n := c.toNat
  (48 ≤ n && n ≤ 57) || (65 ≤ n && n ≤ 90) || (97 ≤ n && n ≤ 122) ||
  n == 0xAA || n == 0xB2 || n == 0xB3 || n == 0xB5 || n == 0xB9 || n == 0xBA ||
  (0xBC ≤ n && n ≤ 0xBE) || (0xC0 ≤ n && n ≤ 0xD6) || (0xD8 ≤ n && n ≤ 0xF6) ||
  (0xF8 ≤ n && n ≤ 0xFF)

/-- Rust `char::is_whitespace`: the full Unicode `White_Space` table, used by
`str::trim` in the service's blank-alias guard. -/
def rust_is_whitespace (c : Char) : Bool :=
  let n := c.toNat
  (9 ≤ n && n ≤ 13) || n == 32 || n == 0x85 || n == 0xA0 || n == 0x1680 ||
  (0x2000 ≤ n && n ≤ 0x200A) || n == 0x2028 || n == 0x2029 || n == 0x202F ||
  n == 0x205F || n == 0x3000

/-- UTF-8 byte length of a string, what Rust `String::len` returns. -/
def str_bytes (s : String) : Nat := (s.data.map Char.utf8Size).sum

/-- Field-level error of the validator crate (`ValidationError`): a static
code set at construction and an optional human-readable message. -/
structure FieldError where
  code : String
  message : Option String
deriving DecidableEq

/-- Outcome of the url crate's `Url::parse` for the clean embedding of
`validate_url`: the scheme and optional host of the parsed absolute URL. -/
structure ParsedUrl where
  scheme : String
  host : Option String
deriving DecidableEq

/-- An input URL string together with the outcome of the external url
crate's `Url::parse` on it (`none` when parsing fails); the parser itself is
an external collaborator, so its verdict travels with the input. -/
structure UrlString where
  raw : String
  parsed : Option ParsedUrl
deriving DecidableEq

/-- Validates that a URL is properly formatted and uses http or https
(`validate_url` in `src/validations/shortened_url.rs`). -/
def validate_url (u : UrlString) : Except FieldError Unit :=
  match u.parsed with
  | some url =>
    if url.scheme.data.isEmpty || url.host.isNone then
      .error ⟨"URL must have a scheme and host", none⟩
    else if url.scheme ≠ "http" && url.scheme ≠ "https" then
      .error ⟨"URL scheme must be http or https", none⟩
    else .ok ()
  | none => .error ⟨"Invalid URL format", none⟩

/-- Validates a custom alias (`validate_custom_alias` in
`src/validations/shortened_url.rs`): the byte length (`String::len`) must be
1 to 10, and every character must be alphanumeric, a hyphen or an
underscore. -/
def validate_custom_alias (al : String) : Except FieldError Unit :=
  if al.data.isEmpty || str_bytes al > 10 then
    .error ⟨"custom_alias_length", some "Custom alias must be between 1 and 10 characters"⟩
  else if !(al.data.all fun c => rust_is_alphanumeric c || c == '-' || c == '_') then
    .error ⟨"Custom alias can only contain alphanumeric characters, hyphens, and underscores",
      none⟩
  else .ok ()

/-- Validates that a date is in the future (`validate_date` in
`src/validations/shortened_url.rs`): fails exactly when the date is before
the current instant. -/
def validate_date (date now : Int) : Except FieldError Unit :=
  if date < now then .error ⟨"Date must be in the future", none⟩ else .ok ()

/-- Application error type (`AppError` in `src/errors/mod.rs`); payloads are
the rendered messages. -/
inductive AppError where
  | Validation (msg : String)
  | Conflict (msg : String)
  | NotFound (msg : String)
  | Internal (msg : String)
  | Server (msg : String)
  | Config (msg : String)
  | Logger (msg : String)
deriving DecidableEq

/-- Repository error type (`RepositoryError` in `src/errors/repository.rs`);
the `Database` payload is its rendered message. -/
inductive RepositoryError where
  | NotFound (msg : String)
  | Conflict (msg : String)
  | InvalidData (msg : String)
  | Database (msg : String)
deriving DecidableEq

/-- Conversion of repository errors into application errors (the
`From<RepositoryError> for AppError` impl in `src/errors/mod.rs`). -/
def app_error_of_repository : RepositoryError → AppError
  | .NotFound msg => .NotFound msg
  | .Conflict msg => .Conflict msg
  | .InvalidData msg => .Validation msg
  | .Database msg => .Internal msg

/-- Message extraction in the `From<validator::ValidationErrors> for
AppError` impl: a field error's message, or `"invalid"` when it has none. -/
def field_message (e : FieldError) : String := e.message.getD "invalid"

/-- A shortened URL record (`ShortenedUrl` in `src/models/shortened_url.rs`).
Ids are naturals (the store assigns them), timestamps are integer seconds,
and the opaque JSON metadata is its rendered string. -/
structure ShortenedUrl where
  id : Nat
  original_url : String
  short_code : String
  created_at : Int
  last_accessed : Option Int
  access_count : Int
  expires_at : Option Int
  is_custom_code : Bool
  is_active : Bool
  metadata : Option String
deriving DecidableEq

/-- The record produced by the derived `Default` impl of `ShortenedUrl`
(nil id, empty strings, epoch timestamp, zero count, `None` options, false
flags). -/
def default_shortened_url : ShortenedUrl :=
  { id := 0, original_url := "", short_code := "", created_at := 0, last_accessed := none,
    access_count := 0, expires_at := none, is_custom_code := false, is_active := false,
    metadata := none }

/-- Checks if the shortened URL has expired (`ShortenedUrl::is_expired`):
true exactly when `expires_at` is present and the current instant is past
it. -/
def ShortenedUrl.is_expired (u : ShortenedUrl) (now : Int) : Bool :=
  match u.expires_at with
  | some expiry => now > expiry
  | none => false

/-- Checks if the URL is still valid (`ShortenedUrl::is_valid`): not expired,
or explicitly active. -/
def ShortenedUrl.is_valid (u : ShortenedUrl) (now : Int) : Bool :=
  !(u.is_expired now) || u.is_active

/-- DTO for creating a new shortened URL (`CreateShortenedUrlDto` in
`src/models/shortened_url.rs`); `expires_in_days` is the `u32` field as a
natural number, and the opaque JSON metadata is its rendered string. -/
structure CreateShortenedUrlDto where
  original_url : UrlString
  custom_alias : Option String
  expires_at : Option Int
  expires_in_days : Option Nat
  metadata : Option String
deriving DecidableEq

/-- Per-field messages collected by the derived `Validate` impl of the
create DTO: `validate_url` on `original_url`, `validate_custom_alias` on a
present `custom_alias`, `validate_date` on a present `expires_at`, and the
`range(min = 0, max = 365)` check on a present `expires_in_days` (absent
`Option` fields are skipped).  The flattening in
`From<validator::ValidationErrors> for AppError` renders each failing field
as `"field: message-or-invalid"`; the hash-map iteration order is fixed here
to the declaration order of the fields. -/
def dto_validate_errors (dto : CreateShortenedUrlDto) (now : Int) : List String :=
  (match validate_url dto.original_url with
   | .error e => ["original_url: " ++ field_message e]
   | .ok _ => []) ++
  (match dto.custom_alias with
   | some al =>
     match validate_custom_alias al with
     | .error e => ["custom_alias: " ++ field_message e]
     | .ok _ => []
   | none => []) ++
  (match dto.expires_at with
   | some d =>
     match validate_date d now with
     | .error e => ["expires_at: " ++ field_message e]
     | .ok _ => []
   | none => []) ++
  (match dto.expires_in_days with
   | some d =>
     if d > 365 then ["expires_in_days: Expiry days must be between 0 and 365"] else []
   | none => [])

/-- The `dto.validate()?` call at the start of `ShortenedUrlService::create`:
ok when no field fails, otherwise the `Validation` error joining the field
messages. -/
def dto_validate (dto : CreateShortenedUrlDto) (now : Int) : Except AppError Unit :=
  match dto_validate_errors dto now with
  | [] => .ok ()
  | es => .error (.Validation (String.intercalate "; " es))

/-- The URL record store: the list of persisted records in insertion order,
standing for the repository's database table. -/
abbrev Store := List ShortenedUrl

/-- Lookup by short code (`ShortenedUrlRepository::find_by_code`): the first
stored record whose `short_code` equals the given code. -/
def store_find_by_code (s : Store) (code : String) : Option ShortenedUrl :=
  s.find? (fun r => r.short_code == code)

/-- Persisting a record (`ShortenedUrlRepository::save`): inside one
transaction, reject with a `Conflict` when a record with the same short code
already exists, otherwise insert the record with a store-assigned id and
return it. -/
def store_save (s : Store) (url : ShortenedUrl) :
    Except RepositoryError (Store × ShortenedUrl) :=
  if (store_find_by_code s url.short_code).isSome then
    .error (.Conflict ("Short code '" ++ url.short_code ++ "' is already in use"))
  else
    let record := { url with id := s.length + 1 }
    .ok (s ++ [record], record)

/-- Update DTO (`ShortenedUrlUpdateParams` in `src/models/shortened_url.rs`);
note that `access_count` is a plain `i64`, not optional. -/
structure ShortenedUrlUpdateParams where
  original_url : Option UrlString
  access_count : Int
  expires_at : Option Int
  last_accessed : Option Int
  is_active : Option Bool
  metadata : Option String
deriving DecidableEq

/-- The record produced by the derived `Default` impl of the update DTO. -/
def default_update_params : ShortenedUrlUpdateParams :=
  { original_url := none, access_count := 0, expires_at := none, last_accessed := none,
    is_active := none, metadata := none }

/-- Per-field messages collected by the derived `Validate` impl of the
update DTO: `validate_url` on a present `original_url`, `range(min = 0)` on
`access_count`, and `validate_date` on a present `expires_at` and on a
present `last_accessed` (`is_active` and `metadata` are unvalidated). -/
def update_validate_errors (p : ShortenedUrlUpdateParams) (now : Int) : List String :=
  (match p.original_url with
   | some u =>
     match validate_url u with
     | .error e => ["original_url: " ++ field_message e]
     | .ok _ => []
   | none => []) ++
  (if p.access_count < 0 then ["access_count: invalid"] else []) ++
  (match p.expires_at with
   | some d =>
     match validate_date d now with
     | .error e => ["expires_at: " ++ field_message e]
     | .ok _ => []
   | none => []) ++
  (match p.last_accessed with
   | some d =>
     match validate_date d now with
     | .error e => ["last_accessed: " ++ field_message e]
     | .ok _ => []
   | none => [])

/-- Modelled from the spec: the repository-side partial update matching the
service's `repository.update(id, &dto) -> affected rows` call.  The
implementation of this method is absent from the checked-in sources (the
repository file only carries an `update(&ShortenedUrl)` of a different
shape), so §4.4/§6 of the specification applies: set the given fields on the
record with that id and report the affected row count. -/
def store_update (s : Store) (id : Nat) (p : ShortenedUrlUpdateParams) : Store × Nat :=
  if (s.find? (fun r => r.id == id)).isSome then
    (s.map fun r =>
      if r.id == id then
        { r with
          original_url := match p.original_url with | some u => u.raw | none => r.original_url,
          access_count := p.access_count,
          expires_at := match p.expires_at with | some d => some d | none => r.expires_at,
          last_accessed := match p.last_accessed with | some d => some d | none => r.last_accessed,
          is_active := match p.is_active with | some b => b | none => r.is_active,
          metadata := match p.metadata with | some m => some m | none => r.metadata }
      else r, 1)
  else (s, 0)

/-- Business-logic update (`ShortenedUrlService::update`): validate the
params DTO at the current instant, then run the repository update. -/
def service_update (s : Store) (id : Nat) (p : ShortenedUrlUpdateParams) (now : Int) :
    Except AppError (Store × Nat) :=
  match update_validate_errors p now with
  | [] => .ok (store_update s id p)
  | es => .error (.Validation (String.intercalate "; " es))

/-- Business-logic lookup (`ShortenedUrlService::get_by_code`): the stored
record, or a `NotFound` error naming the code. -/
def service_get_by_code (s : Store) (code : String) : Except AppError ShortenedUrl :=
  match store_find_by_code s code with
  | some url => .ok url
  | none => .error (.NotFound ("URL with code '" ++ code ++ "' not found"))

/-- One candidate of the generated-code path: the `k`-th call of
`id_generator::generate_short_id(6)`, fed by the `k`-th random 64-bit number
and character-draw stream. -/
def gen_candidate (randIds : Nat → Nat) (padDraws : Nat → Nat → Fin 62) (k : Nat) : String :=
  generate_short_id (randIds k) (padDraws k) 6

/-- The retry loop of the generated path in `ShortenedUrlService::create`:
while the candidate is found in the store, regenerate and count the attempt,
failing with the `Internal` error once 5 attempts have collided; otherwise
adopt the first free candidate. -/
def gen_loop (s : Store) (randIds : Nat → Nat) (padDraws : Nat → Nat → Fin 62)
    (code : String) (attempts : Nat) : Except AppError String :=
  if (store_find_by_code s code).isSome then
    let code2 := gen_candidate randIds padDraws (attempts + 1)
    if h : attempts + 1 ≥ 5 then
      .error (.Internal "Failed to generate a unique short code after multiple attempts")
    else gen_loop s randIds padDraws code2 (attempts + 1)
  else .ok code
termination_by 5 - attempts
decreasing_by omega

/-- The whole generated path: the initial candidate, then the retry loop
starting at zero attempts. -/
def generated_code (s : Store) (randIds : Nat → Nat) (padDraws : Nat → Nat → Fin 62) :
    Except AppError String :=
  gen_loop s randIds padDraws (gen_candidate randIds padDraws 0) 0

/-- Business-logic create (`ShortenedUrlService::create` in
`src/services/shortened_url.rs`): validate the DTO; use a present non-blank
custom alias after an in-use check, otherwise generate a code with the retry
loop; resolve expiration (a given `expires_at` must be strictly in the
future, else a given `expires_in_days` must be nonzero and maps to
`now + days`); attach the metadata and save.  The instant `now` stands for
every clock read inside the call, and the random inputs of the generated
path are explicit streams.  On success the new store and the saved record
are returned (the Rust code wraps the record into a response DTO with the
same fields); on an error nothing is persisted. -/
def create (dto : CreateShortenedUrlDto) (s : Store) (now : Int)
    (randIds : Nat → Nat) (padDraws : Nat → Nat → Fin 62) :
    Except AppError (Store × ShortenedUrl) :=
  match dto_validate dto now with
  | .error e => .error e
  | .ok _ =>
    let code_result : Except AppError (String × Bool) :=
      match dto.custom_alias with
      | some code =>
        if !(code.data.all rust_is_whitespace) then
          if (store_find_by_code s code).isSome then
            .error (.Validation ("Custom short code '" ++ code ++ "' is already in use"))
          else .ok (code, true)
        else (generated_code s randIds padDraws).map (fun c => (c, false))
      | none => (generated_code s randIds padDraws).map (fun c => (c, false))
    match code_result with
    | .error e => .error e
    | .ok (short_code, is_custom) =>
      let url0 := { default_shortened_url with
        short_code := short_code, is_custom_code := is_custom,
        original_url := dto.original_url.raw }
      let expiry_result : Except AppError (Option Int) :=
        match dto.expires_at with
        | some e =>
          if e ≤ now then .error (.Validation "Expiration date must be in the future")
          else .ok (some e)
        | none =>
          match dto.expires_in_days with
          | some days =>
            if days = 0 then .error (.Validation "Expiration days must be positive")
            else .ok (some (now + 86400 * (days : Int)))
          | none => .ok none
      match expiry_result with
      | .error e => .error e
      | .ok ex =>
        let url1 := { url0 with expires_at := ex, metadata := dto.metadata }
        match store_save s url1 with
        | .error re => .error (app_error_of_repository re)
        | .ok (s2, record) => .ok (s2, record)

/-- Redirect route handler (`redirect_handler` in
`src/handlers/shortened_url.rs`): look the code up, return the validity
error or build the access-stat update params (`access_count + 1`,
`last_accessed = now`, an informational metadata note) and run
`service.update`, discarding its result exactly as the source's `let _ =`
does — a failed update leaves the store unchanged and the redirect is
returned regardless.  `now` is the handler's clock; `now_update` is the
later clock read inside the update call's validation. -/
def redirect_handler (s : Store) (code : String) (now now_update : Int) :
    Except AppError (Store × String) :=
  match service_get_by_code s code with
  | .error e => .error e
  | .ok url =>
    if url.is_valid now then
      .error (.Validation ("URL with code '" ++ code ++ "' has expired"))
    else
      let params := { default_update_params with
        access_count := url.access_count + 1,
        last_accessed := some now,
        metadata := some ("Last accessed at: " ++ toString now) }
      let s2 :=
        match service_update s url.id params now_update with
        | .ok r => r.1
        | .error _ => s
      .ok (s2, url.original_url)

/-- A well-formed https URL input, parsed by the external url crate. -/
def url_example : UrlString :=
  { raw := "https://example.com", parsed := some { scheme := "https", host := some "example.com" } }

/-- A second well-formed https URL input. -/
def url_other : UrlString :=
  { raw := "https://other.com", parsed := some { scheme := "https", host := some "other.com" } }

/-- A fresh, never-expiring, active record under code `abc123`. -/
def rec_abc : ShortenedUrl :=
  { default_shortened_url with
    id := 1, original_url := "https://example.com", short_code := "abc123", is_active := true }

/-- An expired (`expires_at = 5`) and inactive record under code `dead01`. -/
def rec_dead : ShortenedUrl :=
  { default_shortened_url with
    id := 2, original_url := "https://old.example.com", short_code := "dead01",
    expires_at := some 5, is_active := false }

/-- C1: the redirect resolver in the source tests `if url.is_valid()` and
errors inside that branch, so it fails with the expired-code Validation
error exactly when `is_valid` is TRUE — the opposite of the claim: at time
100 the never-expired active record `abc123` (is_valid = true) is rejected
as expired, while the expired inactive record `dead01` (is_valid = false) is
served a redirect. -/
theorem redirect_handler_inverts_validity :
    rec_abc.is_valid 100 = true ∧
    redirect_handler [rec_abc] "abc123" 100 101 =
      .error (.Validation "URL with code 'abc123' has expired") ∧
    rec_dead.is_valid 100 = false ∧
    redirect_handler [rec_dead] "dead01" 100 101 = .ok ([rec_dead], "https://old.example.com") :=
  ⟨rfl, rfl, rfl, rfl⟩

/-- C3: evaluation of the source's access-stat update after the one resolve
that succeeds on `dead01` (times: resolve at 50, the awaited update's
validation at 51).  The handler awaits `service.update` inline; that update
carries `access_count + 1` and `last_accessed = 50`, but `last_accessed` is
validated with the must-be-in-the-future date check, which fails at the
later instant 51, so the update returns a Validation error, the stored
`access_count` stays 0 and `last_accessed` stays `none` — yet the redirect
still succeeds because the error is discarded. -/
theorem redirect_access_update_never_lands :
    redirect_handler [rec_dead] "dead01" 50 51 = .ok ([rec_dead], "https://old.example.com") ∧
    service_update [rec_dead] 2
      { default_update_params with
        access_count := 1, last_accessed := some 50,
        metadata := some ("Last accessed at: " ++ toString (50 : Int)) } 51 =
      .error (.Validation "last_accessed: invalid") ∧
    (store_find_by_code [rec_dead] "dead01").map (fun r => (r.access_count, r.last_accessed)) =
      some (0, none) :=
  ⟨rfl, rfl, rfl⟩

/-- Classifier distinguishing the Conflict constructor of `AppError` on
create results. -/
def is_conflict_error : Except AppError (Store × ShortenedUrl) → Bool
  | .error (.Conflict _) => true
  | _ => false

/-- A record already holding the custom alias `my-link`. -/
def rec_mylink : ShortenedUrl :=
  { default_shortened_url with
    id := 1, original_url := "https://example.com", short_code := "my-link",
    is_custom_code := true, is_active := true }

/-- A create request re-using the custom alias `my-link`. -/
def dto_mylink : CreateShortenedUrlDto :=
  { original_url := url_other, custom_alias := some "my-link", expires_at := none,
    expires_in_days := none, metadata := none }

/-- C2 counterexample: with `my-link` already stored, create on a request
with that custom alias fails — but with the service's Validation error, not
with a Conflict error as the claim states. -/
theorem create_duplicate_alias_is_not_conflict :
    create dto_mylink [rec_mylink] 0 (fun _ => 0) (fun _ _ => 0) =
      .error (.Validation "Custom short code 'my-link' is already in use") ∧
    is_conflict_error (create dto_mylink [rec_mylink] 0 (fun _ => 0) (fun _ _ => 0)) = false :=
  ⟨rfl, rfl⟩

theorem dto_validate_error_validation (dto : CreateShortenedUrlDto) (now : Int) (e : AppError)
    (h : dto_validate dto now = .error e) : ∃ m, e = .Validation m := by
  unfold dto_validate at h
  cases herr : dto_validate_errors dto now with
  | nil =>
    rw [herr] at h
    exact absurd h (by simp)
  | cons a l =>
    rw [herr] at h
    simp only [Except.error.injEq] at h
    exact ⟨_, h.symm⟩

theorem dto_validate_of_errors (dto : CreateShortenedUrlDto) (now : Int)
    (h : dto_validate_errors dto now ≠ []) :
    dto_validate dto now =
      .error (.Validation (String.intercalate "; " (dto_validate_errors dto now))) := by
  unfold dto_validate
  cases herr : dto_validate_errors dto now with
  | nil => exact absurd herr h
  | cons a l => simp

theorem dto_validate_errors_of_ok (dto : CreateShortenedUrlDto) (now : Int)
    (h : dto_validate dto now = .ok ()) : dto_validate_errors dto now = [] := by
  cases herr : dto_validate_errors dto now with
  | nil => rfl
  | cons a l =>
    unfold dto_validate at h
    rw [herr] at h
    exact absurd h (by simp)

theorem dto_validate_ok_parts (dto : CreateShortenedUrlDto) (now : Int)
    (h : dto_validate dto now = .ok ()) :
    validate_url dto.original_url = .ok () ∧
    (∀ al, dto.custom_alias = some al → validate_custom_alias al = .ok ()) ∧
    (∀ e, dto.expires_at = some e → ¬ e < now) ∧
    (∀ d, dto.expires_in_days = some d → d ≤ 365) := by
  have herr := dto_validate_errors_of_ok dto now h
  unfold dto_validate_errors at herr
  simp only [List.append_eq_nil] at herr
  obtain ⟨⟨⟨h1, h2⟩, h3⟩, h4⟩ := herr
  refine ⟨?_, ?_, ?_, ?_⟩
  · cases hu : validate_url dto.original_url with
    | error e => simp [hu] at h1
    | ok u => cases u; rfl
  · intro al hal
    cases ha : validate_custom_alias al with
    | error e => simp [hal, ha] at h2
    | ok u => cases u; rfl
  · intro e he
    intro hlt
    have hdate : validate_date e now = .error ⟨"Date must be in the future", none⟩ := by
      unfold validate_date
      rw [if_pos hlt]
    simp [he, hdate] at h3
  · intro d hd
    by_contra hgt
    simp only [hd] at h4
    rw [if_pos (by omega : d > 365)] at h4
    simp at h4

theorem create_of_validate_error (dto : CreateShortenedUrlDto) (s : Store) (now : Int)
    (rI : Nat → Nat) (pD : Nat → Nat → Fin 62) (e : AppError)
    (h : dto_validate dto now = .error e) : create dto s now rI pD = .error e := by
  unfold create
  rw [h]

theorem create_of_invalid_dto (dto : CreateShortenedUrlDto) (s : Store) (now : Int)
    (rI : Nat → Nat) (pD : Nat → Nat → Fin 62)
    (h : dto_validate_errors dto now ≠ []) :
    ∃ msg, create dto s now rI pD = .error (.Validation msg) :=
  ⟨_, create_of_validate_error dto s now rI pD _ (dto_validate_of_errors dto now h)⟩

theorem create_custom_alias_conflict (dto : CreateShortenedUrlDto) (s : Store) (now : Int)
    (rI : Nat → Nat) (pD : Nat → Nat → Fin 62) (al : String)
    (h0 : dto_validate dto now = .ok ())
    (h1 : dto.custom_alias = some al)
    (h2 : al.data.all rust_is_whitespace = false)
    (h3 : (store_find_by_code s al).isSome = true) :
    create dto s now rI pD =
      .error (.Validation ("Custom short code '" ++ al ++ "' is already in use")) := by
  unfold create
  rw [h0, h1]
  simp [h2, h3]

/-- C2 amended: for every create request with a present, non-blank custom
alias whose code the store already holds, create fails before persisting
anything — but with a `Validation` error (the message naming the alias in
use), not with the distinct `Conflict` classification, which only the
store's own save produces. -/
theorem create_duplicate_alias_fails_validation (dto : CreateShortenedUrlDto) (s : Store)
    (now : Int) (rI : Nat → Nat) (pD : Nat → Nat → Fin 62) (al : String) (r : ShortenedUrl)
    (h1 : dto.custom_alias = some al)
    (h2 : al.data.all rust_is_whitespace = false)
    (h3 : store_find_by_code s al = some r) :
    ∃ msg, create dto s now rI pD = .error (.Validation msg) := by
  cases h0 : dto_validate dto now with
  | error e =>
    obtain ⟨m, rfl⟩ := dto_validate_error_validation dto now e h0
    exact ⟨m, create_of_validate_error dto s now rI pD _ h0⟩
  | ok u =>
    cases u
    exact ⟨_, create_custom_alias_conflict dto s now rI pD al h0 h1 h2 (by rw [h3]; rfl)⟩

/-- Witness for the amended C2 at the concrete conflicting request. -/
theorem create_duplicate_alias_fails_validation_witness :
    ∃ msg, create dto_mylink [rec_mylink] 7 (fun _ => 0) (fun _ _ => 0) =
      .error (.Validation msg) :=
  create_duplicate_alias_fails_validation dto_mylink [rec_mylink] 7 (fun _ => 0) (fun _ _ => 0)
    "my-link" rec_mylink rfl (by decide) rfl

theorem gen_loop_found (s : Store) (rI : Nat → Nat) (pD : Nat → Nat → Fin 62)
    (code : String) (a : Nat) (h : (store_find_by_code s code).isSome = true) :
    gen_loop s rI pD code a =
      if a + 1 ≥ 5 then
        .error (.Internal "Failed to generate a unique short code after multiple attempts")
      else gen_loop s rI pD (gen_candidate rI pD (a + 1)) (a + 1) := by
  rw [gen_loop]
  simp [h]

theorem gen_loop_free (s : Store) (rI : Nat → Nat) (pD : Nat → Nat → Fin 62)
    (code : String) (a : Nat) (h : store_find_by_code s code = none) :
    gen_loop s rI pD code a = .ok code := by
  rw [gen_loop]
  simp [h]

theorem gen_loop_exhaust (s : Store) (rI : Nat → Nat) (pD : Nat → Nat → Fin 62) :
    ∀ n a, a + n = 5 → 1 ≤ n →
      (∀ k, a ≤ k → k < 5 → (store_find_by_code s (gen_candidate rI pD k)).isSome = true) →
      gen_loop s rI pD (gen_candidate rI pD a) a =
        .error (.Internal "Failed to generate a unique short code after multiple attempts") := by
  intro n
  induction n with
  | zero =>
    intro a _ h2 _
    omega
  | succ n ih =>
    intro a h1 _ hall
    have hfound := hall a (le_refl a) (by omega)
    rw [gen_loop_found s rI pD _ a hfound]
    by_cases h5 : a + 1 ≥ 5
    · rw [if_pos h5]
    · rw [if_neg h5]
      exact ih (a + 1) (by omega) (by omega) (fun k hk1 hk2 => hall k (by omega) hk2)

theorem gen_loop_adopt (s : Store) (rI : Nat → Nat) (pD : Nat → Nat → Fin 62) :
    ∀ n a j, a + n = 5 → 1 ≤ n → a ≤ j → j < 5 →
      (∀ k, a ≤ k → k < j → (store_find_by_code s (gen_candidate rI pD k)).isSome = true) →
      store_find_by_code s (gen_candidate rI pD j) = none →
      gen_loop s rI pD (gen_candidate rI pD a) a = .ok (gen_candidate rI pD j) := by
  intro n
  induction n with
  | zero =>
    intro a j h1 h2 _ _ _ _
    omega
  | succ n ih =>
    intro a j h1 _ haj hj5 hcoll hfree
    by_cases heq : a = j
    · subst heq
      exact gen_loop_free s rI pD _ a hfree
    · have hfound := hcoll a (le_refl a) (by omega)
      rw [gen_loop_found s rI pD _ a hfound, if_neg (by omega : ¬ a + 1 ≥ 5)]
      exact ih (a + 1) j (by omega) (by omega) (by omega) hj5
        (fun k hk1 hk2 => hcoll k (by omega) hk2) hfree

/-- C4: in the generated-code path (validated request, no custom alias), the
engine checks at most 5 six-character candidates against the store: when the
first 5 all collide it fails with the Internal error (no fallback to a
longer code is attempted), and when some candidate among the first 5 is the
first one free, create succeeds and the saved record carries exactly that
six-character candidate with `is_custom_code = false`. -/
theorem create_generated_retry_budget (dto : CreateShortenedUrlDto) (s : Store) (now : Int)
    (rI : Nat → Nat) (pD : Nat → Nat → Fin 62)
    (h0 : dto_validate dto now = .ok ()) (h1 : dto.custom_alias = none) :
    ((∀ k, k < 5 → (store_find_by_code s (gen_candidate rI pD k)).isSome = true) →
      create dto s now rI pD =
        .error (.Internal "Failed to generate a unique short code after multiple attempts")) ∧
    (∀ j, j < 5 → (∀ k, k < j → (store_find_by_code s (gen_candidate rI pD k)).isSome = true) →
      store_find_by_code s (gen_candidate rI pD j) = none →
      dto.expires_at = none → dto.expires_in_days = none →
      ∃ s2 rec, create dto s now rI pD = .ok (s2, rec) ∧
        rec.short_code = gen_candidate rI pD j ∧ rec.is_custom_code = false ∧
        (gen_candidate rI pD j).data.length = 6) := by
  constructor
  · intro hall
    have hgen : generated_code s rI pD =
        .error (.Internal "Failed to generate a unique short code after multiple attempts") := by
      unfold generated_code
      exact gen_loop_exhaust s rI pD 5 0 rfl (by omega) (fun k _ hk2 => hall k hk2)
    unfold create
    rw [h0, h1]
    simp [hgen, Except.map]
  · intro j hj hcoll hfree hea hed
    have hgen : generated_code s rI pD = .ok (gen_candidate rI pD j) := by
      unfold generated_code
      exact gen_loop_adopt s rI pD 5 0 j rfl (by omega) (by omega) hj
        (fun k _ hk2 => hcoll k hk2) hfree
    unfold create
    rw [h0, h1]
    simp only [hgen, Except.map, hea, hed, store_save]
    simp only [hfree]
    rw [if_neg (by simp : ¬ ((none : Option ShortenedUrl).isSome = true))]
    exact ⟨_, _, rfl, rfl, rfl, (generate_short_id_length_and_alphabet (rI j) (pD j) 6 (by omega)).1⟩

/-- Witness for C4 on the empty store: the first candidate is free and gets
adopted. -/
theorem create_generated_retry_budget_witness :
    ∃ s2 rec,
      create
        { original_url := url_example, custom_alias := none, expires_at := none,
          expires_in_days := none, metadata := none }
        [] 0 (fun _ => 0) (fun _ _ => 0) = .ok (s2, rec) ∧
      rec.short_code = gen_candidate (fun _ => 0) (fun _ _ => 0) 0 ∧
      rec.is_custom_code = false ∧
      (gen_candidate (fun _ => 0) (fun _ _ => 0) 0).data.length = 6 :=
  (create_generated_retry_budget
    { original_url := url_example, custom_alias := none, expires_at := none,
      expires_in_days := none, metadata := none }
    [] 0 (fun _ => 0) (fun _ _ => 0) rfl rfl).2 0 (by omega)
    (fun k hk => absurd hk (by omega)) rfl rfl rfl

/-- C5: create resolves expiration as claimed — a given `expires_at` must be
strictly in the future or create fails with a Validation error; otherwise a
given `expires_in_days` must lie in `[1, 365]` (the value 0 fails with the
Validation error "Expiration days must be positive") and the stored record's
`expires_at` is `now` plus that many days (86400-second days); otherwise the
stored `expires_at` is `None`.  The hypotheses fix a validated-alias-free
request whose first generated candidate is free, so that the expiration step
is reached. -/
theorem create_expiration_policy (dto : CreateShortenedUrlDto) (s : Store) (now : Int)
    (rI : Nat → Nat) (pD : Nat → Nat → Fin 62)
    (h1 : dto.custom_alias = none)
    (hfree : store_find_by_code s (gen_candidate rI pD 0) = none) :
    (∀ e, dto.expires_at = some e → e ≤ now →
      ∃ msg, create dto s now rI pD = .error (.Validation msg)) ∧
    (∀ s2 rec, create dto s now rI pD = .ok (s2, rec) →
      (∀ e, dto.expires_at = some e → now < e ∧ rec.expires_at = some e) ∧
      (dto.expires_at = none → ∀ d, dto.expires_in_days = some d →
        (1 ≤ d ∧ d ≤ 365) ∧ rec.expires_at = some (now + 86400 * (d : Int))) ∧
      (dto.expires_at = none → dto.expires_in_days = none → rec.expires_at = none)) ∧
    (dto_validate dto now = .ok () → dto.expires_at = none → dto.expires_in_days = some 0 →
      create dto s now rI pD = .error (.Validation "Expiration days must be positive")) := by
  have hgen : generated_code s rI pD = .ok (gen_candidate rI pD 0) := by
    unfold generated_code
    exact gen_loop_free s rI pD _ 0 hfree
  refine ⟨?_, ?_, ?_⟩
  · intro e hea hle
    cases h0 : dto_validate dto now with
    | error er =>
      obtain ⟨m, rfl⟩ := dto_validate_error_validation dto now er h0
      exact ⟨m, create_of_validate_error dto s now rI pD _ h0⟩
    | ok u =>
      cases u
      refine ⟨"Expiration date must be in the future", ?_⟩
      unfold create
      rw [h0, h1]
      simp [hgen, Except.map, hea, if_pos hle]
  · intro s2 rec hok
    cases h0 : dto_validate dto now with
    | error er =>
      rw [create_of_validate_error dto s now rI pD er h0] at hok
      exact absurd hok (by simp)
    | ok u =>
      cases u
      have hparts := dto_validate_ok_parts dto now h0
      unfold create at hok
      rw [h0, h1] at hok
      simp only [hgen, Except.map] at hok
      refine ⟨?_, ?_, ?_⟩
      · intro e hea
        simp only [hea] at hok
        by_cases hle : e ≤ now
        · rw [if_pos hle] at hok
          exact absurd hok (by simp)
        · rw [if_neg hle] at hok
          refine ⟨by omega, ?_⟩
          simp only [store_save] at hok
          simp only [hfree] at hok
          rw [if_neg (by simp : ¬ ((none : Option ShortenedUrl).isSome = true))] at hok
          simp only [Except.ok.injEq, Prod.mk.injEq] at hok
          rw [← hok.2]
      · intro hea d hd
        simp only [hea, hd] at hok
        by_cases hd0 : d = 0
        · rw [if_pos hd0] at hok
          exact absurd hok (by simp)
        · rw [if_neg hd0] at hok
          refine ⟨⟨by omega, hparts.2.2.2 d hd⟩, ?_⟩
          simp only [store_save] at hok
          simp only [hfree] at hok
          rw [if_neg (by simp : ¬ ((none : Option ShortenedUrl).isSome = true))] at hok
          simp only [Except.ok.injEq, Prod.mk.injEq] at hok
          rw [← hok.2]
      · intro hea hed
        simp only [hea, hed] at hok
        simp only [store_save] at hok
        simp only [hfree] at hok
        rw [if_neg (by simp : ¬ ((none : Option ShortenedUrl).isSome = true))] at hok
        simp only [Except.ok.injEq, Prod.mk.injEq] at hok
        rw [← hok.2]
  · intro h0 hea hd0
    unfold create
    rw [h0, h1]
    simp [hgen, Except.map, hea, hd0]

/-- Witness for C5 at the scenario input `expires_in_days = 0` on the empty
store: the specific Validation message about positive expiration days. -/
theorem create_expiration_policy_witness :
    create
      { original_url := url_example, custom_alias := none, expires_at := none,
        expires_in_days := some 0, metadata := none }
      [] 0 (fun _ => 0) (fun _ _ => 0) =
      .error (.Validation "Expiration days must be positive") :=
  (create_expiration_policy
    { original_url := url_example, custom_alias := none, expires_at := none,
      expires_in_days := some 0, metadata := none }
    [] 0 (fun _ => 0) (fun _ _ => 0) rfl rfl).2.2 rfl rfl rfl

theorem validate_url_error_shape (u : UrlString) (h : validate_url u ≠ .ok ()) :
    ∃ e, validate_url u = .error e := by
  cases hv : validate_url u with
  | error e => exact ⟨e, rfl⟩
  | ok v =>
    cases v
    exact absurd hv h

theorem dto_errors_ne_nil_of_url (dto : CreateShortenedUrlDto) (now : Int) (e : FieldError)
    (h : validate_url dto.original_url = .error e) : dto_validate_errors dto now ≠ [] := by
  unfold dto_validate_errors
  simp [h]

/-- C7: create validates `original_url` before anything else — it can succeed
only when the external parse yields an absolute URL whose scheme is http or
https and which has a host (the url crate never produces an empty host for
those schemes), this is exactly what `validate_url` accepts, and whenever
that fails create fails with a Validation error, regardless of the store and
of the random draws. -/
theorem create_requires_valid_url (dto : CreateShortenedUrlDto) (s : Store) (now : Int)
    (rI : Nat → Nat) (pD : Nat → Nat → Fin 62) :
    (validate_url dto.original_url = .ok () ↔
      ∃ p, dto.original_url.parsed = some p ∧
        (p.scheme = "http" ∨ p.scheme = "https") ∧ p.host.isSome = true) ∧
    (∀ s2 rec, create dto s now rI pD = .ok (s2, rec) →
      validate_url dto.original_url = .ok ()) ∧
    (validate_url dto.original_url ≠ .ok () →
      ∃ msg, create dto s now rI pD = .error (.Validation msg)) := by
  refine ⟨?_, ?_, ?_⟩
  · unfold validate_url
    cases hp : dto.original_url.parsed with
    | none => simp
    | some p =>
      dsimp only
      split_ifs with hc1 hc2
      · constructor
        · intro h
          exact absurd h (by simp)
        · rintro ⟨q, hq, hsch, hhost⟩
          rw [Option.some_inj] at hq
          subst hq
          simp only [Bool.or_eq_true] at hc1
          rcases hc1 with hc1 | hc1
          · rcases hsch with hs | hs <;> rw [hs] at hc1 <;> exact absurd hc1 (by decide)
          · rw [Option.isNone_iff_eq_none] at hc1
            rw [hc1] at hhost
            exact absurd hhost (by decide)
      · constructor
        · intro h
          exact absurd h (by simp)
        · rintro ⟨q, hq, hsch, _⟩
          rw [Option.some_inj] at hq
          subst hq
          simp only [Bool.and_eq_true, decide_eq_true_eq] at hc2
          rcases hsch with hs | hs
          · exact absurd hs hc2.1
          · exact absurd hs hc2.2
      · constructor
        · intro _
          refine ⟨p, rfl, ?_, ?_⟩
          · simp only [Bool.and_eq_true, decide_eq_true_eq] at hc2
            by_contra hboth
            push_neg at hboth
            exact hc2 ⟨hboth.1, hboth.2⟩
          · simp only [Bool.or_eq_true] at hc1
            push_neg at hc1
            cases hh : p.host with
            | none =>
              exfalso
              exact hc1.2 (by rw [hh]; rfl)
            | some hostv => rfl
        · intro _
          rfl
  · intro s2 rec hok
    cases h0 : dto_validate dto now with
    | error er =>
      rw [create_of_validate_error dto s now rI pD er h0] at hok
      exact absurd hok (by simp)
    | ok u =>
      cases u
      exact (dto_validate_ok_parts dto now h0).1
  · intro hne
    obtain ⟨e, he⟩ := validate_url_error_shape dto.original_url hne
    exact create_of_invalid_dto dto s now rI pD (dto_errors_ne_nil_of_url dto now e he)

/-- A create request whose URL does not parse (the scenario input
"not-a-url"). -/
def dto_notaurl : CreateShortenedUrlDto :=
  { original_url := { raw := "not-a-url", parsed := none }, custom_alias := none,
    expires_at := none, expires_in_days := none, metadata := none }

/-- Witness for C7 at the unparsable input "not-a-url" on the empty store. -/
theorem create_requires_valid_url_witness :
    ∃ msg, create dto_notaurl [] 0 (fun _ => 0) (fun _ _ => 0) = .error (.Validation msg) :=
  (create_requires_valid_url dto_notaurl [] 0 (fun _ => 0) (fun _ _ => 0)).2.2
    (fun h => Except.noConfusion h)

theorem utf8Size_ge_one (c : Char) : 1 ≤ c.utf8Size := by
  unfold Char.utf8Size
  dsimp only
  split_ifs <;> norm_num

theorem str_bytes_pos (al : String) (h : al.data ≠ []) : 1 ≤ str_bytes al := by
  unfold str_bytes
  cases hd : al.data with
  | nil => exact absurd hd h
  | cons c t =>
    simp only [List.map_cons, List.sum_cons]
    have := utf8Size_ge_one c
    omega

theorem whitespace_char_rejected (c : Char) (h : rust_is_whitespace c = true) :
    (rust_is_alphanumeric c || c == '-' || c == '_') = false := by
  rw [Bool.eq_false_iff]
  intro hX
  simp only [Bool.or_eq_true, beq_iff_eq] at hX
  rcases hX with (ha | hd) | hu
  · simp only [rust_is_whitespace, Bool.or_eq_true, Bool.and_eq_true, decide_eq_true_eq,
      beq_iff_eq] at h
    simp only [rust_is_alphanumeric, Bool.or_eq_true, Bool.and_eq_true, decide_eq_true_eq,
      beq_iff_eq] at ha
    omega
  · subst hd
    exact absurd h (by decide)
  · subst hu
    exact absurd h (by decide)

theorem validate_custom_alias_blank (al : String)
    (hblank : al.data.all rust_is_whitespace = true) :
    ∃ e, validate_custom_alias al = .error e := by
  unfold validate_custom_alias
  by_cases h1 : (al.data.isEmpty || decide (str_bytes al > 10)) = true
  · rw [if_pos h1]
    exact ⟨_, rfl⟩
  · rw [if_neg h1]
    have hne : al.data ≠ [] := by
      intro hnil
      apply h1
      simp [hnil]
    obtain ⟨c, hc⟩ := List.exists_mem_of_ne_nil al.data hne
    have hwc : rust_is_whitespace c = true := by
      rw [List.all_eq_true] at hblank
      exact hblank c hc
    have hfail :
        al.data.all (fun c => rust_is_alphanumeric c || c == '-' || c == '_') = false := by
      by_contra hcon
      rw [Bool.not_eq_false, List.all_eq_true] at hcon
      have hcontra := hcon c hc
      rw [whitespace_char_rejected c hwc] at hcontra
      exact absurd hcontra (by decide)
    rw [hfail]
    exact ⟨_, rfl⟩

/-- C10: a create request whose custom alias is present but blank (empty or
all whitespace) fails the alias validation inside `dto.validate()` — the
empty alias fails the length rule and a whitespace alias fails either the
length rule or the character rule, since no whitespace character is
alphanumeric, a hyphen or an underscore — so create returns a Validation
error for every store and every random stream: a blank alias never reaches
the generated-code path and never yields a record. -/
theorem create_blank_alias_never_generates (al : String) (dto : CreateShortenedUrlDto)
    (s : Store) (now : Int) (rI : Nat → Nat) (pD : Nat → Nat → Fin 62)
    (hal : dto.custom_alias = some al)
    (hblank : al.data.all rust_is_whitespace = true) :
    ∃ msg, create dto s now rI pD = .error (.Validation msg) := by
  obtain ⟨e, he⟩ := validate_custom_alias_blank al hblank
  apply create_of_invalid_dto
  unfold dto_validate_errors
  simp [hal, he]

/-- A create request whose custom alias is a single space. -/
def dto_blank : CreateShortenedUrlDto :=
  { original_url := url_example, custom_alias := some " ", expires_at := none,
    expires_in_days := none, metadata := none }

/-- Witness for C10 at the one-space alias on the empty store. -/
theorem create_blank_alias_never_generates_witness :
    ∃ msg, create dto_blank [] 0 (fun _ => 0) (fun _ _ => 0) = .error (.Validation msg) :=
  create_blank_alias_never_generates " " dto_blank [] 0 (fun _ => 0) (fun _ _ => 0)
    rfl (by decide)

/-- C6 amended: a present, non-blank custom alias passes validation exactly
when its UTF-8 BYTE length (`String::len` counts bytes, not characters) is 1
to 10 and every character is alphanumeric, a hyphen or an underscore; any
alias violating this makes create fail with a Validation error.  The
hypothesis restricts the alias to code points up to U+00FF, the range on
which the embedded `rust_is_alphanumeric` is the Rust predicate. -/
theorem validate_custom_alias_bytes_rule (al : String)
    (hrange : ∀ c ∈ al.data, c.toNat ≤ 255) :
    (validate_custom_alias al = .ok () ↔
      (1 ≤ str_bytes al ∧ str_bytes al ≤ 10 ∧
        al.data.all (fun c => rust_is_alphanumeric c || c == '-' || c == '_') = true)) ∧
    (validate_custom_alias al ≠ .ok () →
      ∀ dto s now rI pD, dto.custom_alias = some al →
        ∃ msg, create dto s now rI pD = .error (.Validation msg)) := by
  constructor
  · unfold validate_custom_alias
    by_cases h1 : (al.data.isEmpty || decide (str_bytes al > 10)) = true
    · rw [if_pos h1]
      constructor
      · intro h
        exact absurd h (by simp)
      · rintro ⟨hb1, hb2, _⟩
        exfalso
        simp only [Bool.or_eq_true, decide_eq_true_eq] at h1
        rcases h1 with h1 | h1
        · rw [List.isEmpty_iff] at h1
          have hz : str_bytes al = 0 := by
            unfold str_bytes
            rw [h1]
            rfl
          omega
        · omega
    · rw [if_neg h1]
      by_cases h2 :
          (!(al.data.all fun c => rust_is_alphanumeric c || c == '-' || c == '_')) = true
      · rw [if_pos h2]
        constructor
        · intro h
          exact absurd h (by simp)
        · rintro ⟨_, _, hall⟩
          rw [hall] at h2
          exact absurd h2 (by decide)
      · rw [if_neg h2]
        constructor
        · intro _
          simp only [Bool.or_eq_true, decide_eq_true_eq, not_or] at h1
          simp only [Bool.not_eq_true, Bool.not_eq_false'] at h2
          refine ⟨?_, by omega, h2⟩
          apply str_bytes_pos
          intro hnil
          exact h1.1 (by simp [hnil])
        · intro _
          rfl
  · intro hne dto s now rI pD hal
    obtain ⟨e, he⟩ : ∃ e, validate_custom_alias al = .error e := by
      cases hv : validate_custom_alias al with
      | error e => exact ⟨e, rfl⟩
      | ok v =>
        cases v
        exact absurd hv hne
    apply create_of_invalid_dto
    unfold dto_validate_errors
    simp [hal, he]

/-- Witness for the amended C6 at the concrete alias `my-link`. -/
theorem validate_custom_alias_bytes_rule_witness :
    validate_custom_alias "my-link" = .ok () :=
  (validate_custom_alias_bytes_rule "my-link" (by decide)).1.mpr (by decide)

/-- A six-character alias of Latin-1 letters; each character is alphanumeric
for Rust's `char::is_alphanumeric`, but its UTF-8 length is 12 bytes. -/
def alias_accented : String := "éééééé"

/-- C6 counterexample: the alias of six alphanumeric characters (so within
"1 to 10 characters long, every character alphanumeric") is nonetheless
rejected by `validate_custom_alias` — `String::len` counts UTF-8 bytes and
sees 12 — and create refuses the request with the length Validation
message. -/
theorem custom_alias_six_chars_rejected :
    alias_accented.data.length = 6 ∧
    (alias_accented.data.all fun c => rust_is_alphanumeric c || c == '-' || c == '_') = true ∧
    str_bytes alias_accented = 12 ∧
    validate_custom_alias alias_accented =
      .error ⟨"custom_alias_length", some "Custom alias must be between 1 and 10 characters"⟩ ∧
    create
      { original_url := url_example, custom_alias := some alias_accented, expires_at := none,
        expires_in_days := none, metadata := none }
      [] 0 (fun _ => 0) (fun _ _ => 0) =
      .error (.Validation "custom_alias: Custom alias must be between 1 and 10 characters") :=
  ⟨rfl, by decide, rfl, rfl, rfl⟩

end UrlShortener
